import Mathlib

/-!
Shallow embedding of the Toshi Home backend core
(`src/main.py` and `src/schemas.py`):

* validation schemas (`Homestay`, `Booking`) with pydantic-style
  field constraints,
* date parsing as done by `datetime.fromisoformat`,
* the booking-creation handler (`create_booking`),
* the query builder of `list_homestays` (Mongo filter dict) together
  with a matching semantics for the filter fragment the code emits,
* the serializer `serialize_doc`,
* the store-availability checks of the two GET handlers.

Python floats are modelled as rationals; machine-level float behaviour
(NaN, rounding) is outside the fragment the claims exercise.
-/

/-- Calendar date-time value as produced by Python `datetime.fromisoformat`.
Fractional seconds and UTC offsets are not modelled; no claim exercises them. -/
structure DT where
  year : Nat
  month : Nat
  day : Nat
  hour : Nat
  minute : Nat
  second : Nat
deriving DecidableEq

/-- Order key. All parsed values have month ≤ 12 < 13, day ≤ 31 < 32,
hour < 24, minute < 60, second < 60, so comparing keys agrees with the
lexicographic (hence Python `datetime`) comparison. -/
def DT.toKey (t : DT) : Nat :=
  ((((t.year * 13 + t.month) * 32 + t.day) * 24 + t.hour) * 60 + t.minute) * 60 + t.second

def digitVal (c : Char) : Option Nat :=
  if c.isDigit then some (c.toNat - 48) else none

def parseDigits2 : List Char → Option (Nat × List Char)
  | a :: b :: rest =>
    match digitVal a, digitVal b with
    | some x, some y => some (10 * x + y, rest)
    | _, _ => none
  | _ => none

def parseDigits4 : List Char → Option (Nat × List Char)
  | a :: b :: c :: d :: rest =>
    match digitVal a, digitVal b, digitVal c, digitVal d with
    | some x, some y, some z, some w => some (1000 * x + 100 * y + 10 * z + w, rest)
    | _, _, _, _ => none
  | _ => none

def isLeap (y : Nat) : Bool :=
  y % 4 == 0 && (y % 100 != 0 || y % 400 == 0)

def daysInMonth (y m : Nat) : Nat :=
  if m == 2 then (if isLeap y then 29 else 28)
  else if m == 4 || m == 6 || m == 9 || m == 11 then 30
  else 31

/-- Time-of-day part `HH[:MM[:SS]]` of an ISO string (the tail after the
one-character separator that `datetime.fromisoformat` skips). -/
def parseTimePart (cs : List Char) : Option (Nat × Nat × Nat) := do
  let (hh, r1) ← parseDigits2 cs
  if hh ≥ 24 then none else
  match r1 with
  | [] => some (hh, 0, 0)
  | ':' :: r2 => do
    let (mm, r3) ← parseDigits2 r2
    if mm ≥ 60 then none else
    match r3 with
    | [] => some (hh, mm, 0)
    | ':' :: r4 => do
      let (ss, r5) ← parseDigits2 r4
      if ss ≥ 60 then none else
      match r5 with
      | [] => some (hh, mm, ss)
      | _ => none
    | _ => none
  | _ => none

/-- Model of Python `datetime.fromisoformat`: a valid `YYYY-MM-DD`
calendar date, optionally followed by a single separator character and a
time of day `HH[:MM[:SS]]`.  In particular it accepts strictly more than
bare `YYYY-MM-DD` strings. -/
def fromisoformat (s : String) : Option DT := do
  let (y, r1) ← parseDigits4 s.data
  match r1 with
  | '-' :: r2 => do
    let (m, r3) ← parseDigits2 r2
    match r3 with
    | '-' :: r4 => do
      let (d, r5) ← parseDigits2 r4
      if y < 1 || m < 1 || m > 12 || d < 1 || d > daysInMonth y m then none else
      match r5 with
      | [] => some ⟨y, m, d, 0, 0, 0⟩
      | _ :: r6 => do
        let (hh, mm, ss) ← parseTimePart r6
        some ⟨y, m, d, hh, mm, ss⟩
    | _ => none
  | _ => none

/-- Spec-side definition, following the spec words only (for comparison
with the code's parser): the string is exactly an ISO calendar date in
`YYYY-MM-DD` format. -/
def specCalendarDate (s : String) : Bool :=
  match s.data with
  | [y1, y2, y3, y4, c1, m1, m2, c2, d1, d2] =>
    ([y1, y2, y3, y4, m1, m2, d1, d2].all Char.isDigit) && c1 == '-' && c2 == '-' &&
    (let y := 1000 * (y1.toNat - 48) + 100 * (y2.toNat - 48) + 10 * (y3.toNat - 48) + (y4.toNat - 48)
     let m := 10 * (m1.toNat - 48) + (m2.toNat - 48)
     let d := 10 * (d1.toNat - 48) + (d2.toNat - 48)
     decide (1 ≤ y) && decide (1 ≤ m) && decide (m ≤ 12) && decide (1 ≤ d) &&
       decide (d ≤ daysInMonth y m))
  | _ => false

/-- Split a character list at the first occurrence of `ch`; `none` when
`ch` does not occur. -/
def breakAt (ch : Char) : List Char → Option (List Char × List Char)
  | [] => none
  | c :: cs =>
    if c == ch then some ([], cs)
    else
      match breakAt ch cs with
      | some (a, b) => some (c :: a, b)
      | none => none

/-- Model of the email-syntax check behind pydantic `EmailStr`
(email-validator): a non-empty local part, a single `@`, and a non-empty
domain that contains an interior dot. -/
def isValidEmail (s : String) : Bool :=
  match breakAt '@' s.data with
  | none => false
  | some (loc, dom) =>
    !loc.isEmpty && !dom.isEmpty && dom.all (fun c => c != '@') &&
      dom.any (fun c => c == '.') && dom.head? != some '.' && dom.getLast? != some '.'

/-- Validated Homestay record (src/schemas.py, class Homestay). -/
structure Homestay where
  title : String
  description : Option String
  location : String
  country : String
  price_per_night : Rat
  max_guests : Int
  amenities : List String
  images : List String
  rating : Option Rat
deriving DecidableEq

/-- Untyped creation input for a Homestay: each field either absent or a
value of the declared type (wrong-typed fields are outside the modelled
fragment; the claims only exercise missing fields and range violations). -/
structure HomestayInput where
  title : Option String
  description : Option String
  location : Option String
  country : Option String
  price_per_night : Option Rat
  max_guests : Option Int
  amenities : Option (List String)
  images : Option (List String)
  rating : Option Rat
deriving DecidableEq

/-- The violated-field list pydantic reports for a Homestay input, in
field declaration order. -/
def homestayErrors (i : HomestayInput) : List String :=
  (match i.title with | none => ["title"] | some _ => []) ++
  (match i.location with | none => ["location"] | some _ => []) ++
  (match i.country with | none => ["country"] | some _ => []) ++
  (match i.price_per_night with
   | none => ["price_per_night"]
   | some p => if p < 0 then ["price_per_night"] else []) ++
  (match i.max_guests with
   | none => ["max_guests"]
   | some g => if g < 1 ∨ 20 < g then ["max_guests"] else []) ++
  (match i.rating with
   | none => []
   | some r => if r < 0 ∨ 5 < r then ["rating"] else [])

/-- Pydantic validation of a Homestay body: a fully-typed record, or the
list of violated fields (never a partial record). -/
def validateHomestay (i : HomestayInput) : Except (List String) Homestay :=
  match i.title, i.location, i.country, i.price_per_night, i.max_guests with
  | some t, some l, some c, some p, some g =>
    if homestayErrors i = [] then
      .ok { title := t, description := i.description, location := l, country := c,
            price_per_night := p, max_guests := g,
            amenities := i.amenities.getD [], images := i.images.getD [],
            rating := i.rating }
    else .error (homestayErrors i)
  | _, _, _, _, _ => .error (homestayErrors i)

/-- Validated Booking record (src/schemas.py, class Booking). -/
structure Booking where
  homestay_id : String
  guest_name : String
  guest_email : String
  guests : Int
  check_in : String
  check_out : String
  notes : Option String
deriving DecidableEq

/-- Untyped creation input for a Booking. -/
structure BookingInput where
  homestay_id : Option String
  guest_name : Option String
  guest_email : Option String
  guests : Option Int
  check_in : Option String
  check_out : Option String
  notes : Option String
deriving DecidableEq

/-- The violated-field list pydantic reports for a Booking input, in
field declaration order. -/
def bookingErrors (i : BookingInput) : List String :=
  (match i.homestay_id with | none => ["homestay_id"] | some _ => []) ++
  (match i.guest_name with | none => ["guest_name"] | some _ => []) ++
  (match i.guest_email with
   | none => ["guest_email"]
   | some e => if isValidEmail e then [] else ["guest_email"]) ++
  (match i.guests with
   | none => ["guests"]
   | some g => if g < 1 ∨ 20 < g then ["guests"] else []) ++
  (match i.check_in with | none => ["check_in"] | some _ => []) ++
  (match i.check_out with | none => ["check_out"] | some _ => [])

/-- Pydantic validation of a Booking body. -/
def validateBooking (i : BookingInput) : Except (List String) Booking :=
  match i.homestay_id, i.guest_name, i.guest_email, i.guests, i.check_in, i.check_out with
  | some hid, some gn, some ge, some gs, some ci, some co =>
    if bookingErrors i = [] then
      .ok { homestay_id := hid, guest_name := gn, guest_email := ge, guests := gs,
            check_in := ci, check_out := co, notes := i.notes }
    else .error (bookingErrors i)
  | _, _, _, _, _, _ => .error (bookingErrors i)

/-- Outcome of `POST /api/bookings`: a 422 schema-validation failure, an
`HTTPException` with status and detail, or 201 `{id, status: "created"}`. -/
inductive BookingOutcome
  | validationErr (fields : List String)
  | httpErr (status : Nat) (detail : String)
  | created (id : String)
deriving DecidableEq

/-- Store-generated identifier for the n-th inserted document. -/
def newId (n : Nat) : String := "oid" ++ toString n

/-- The `create_booking` handler (src/main.py lines 148-160): schema
validation, then `fromisoformat` on both date strings (a parse failure
raises `ValueError`, answered with a fixed 400 detail), then the strict
order check, and only then the insert. The second component is the
`booking` collection after the request. -/
def postBooking (i : BookingInput) (store : List Booking) : BookingOutcome × List Booking :=
  match validateBooking i with
  | .error fs => (.validationErr fs, store)
  | .ok b =>
    match fromisoformat b.check_in with
    | none => (.httpErr 400 "Invalid date format. Use YYYY-MM-DD", store)
    | some ci =>
      match fromisoformat b.check_out with
      | none => (.httpErr 400 "Invalid date format. Use YYYY-MM-DD", store)
      | some co =>
        if co.toKey ≤ ci.toKey then
          (.httpErr 400 "check_out must be after check_in", store)
        else
          (.created (newId store.length), store ++ [b])

/-- Document field values (the closed value set of the data model; the
claims only exercise strings, numbers, identifiers and date-times —
nested documents are outside the modelled fragment). -/
inductive Value
  | vStr (s : String)
  | vNum (q : Rat)
  | vBool (b : Bool)
  | vDT (t : DT)
  | vOid (s : String)
  | vNull
  | vListStr (l : List String)
deriving DecidableEq

/-- A stored document: field/value pairs with the usual Python-dict
unique-key discipline. -/
abbrev Doc := List (String × Value)

/-- First value stored under a key (Python dict lookup). -/
def lookupV : Doc → String → Option Value
  | [], _ => none
  | (k, v) :: rest, key => if k == key then some v else lookupV rest key

def hasKey (d : Doc) (k : String) : Bool :=
  d.any (fun kv => kv.1 == k)

/-- One character of a case-insensitive regex body: `.` matches any
character, anything else matches itself up to case. -/
def charCI (p c : Char) : Bool :=
  p == '.' || p.toLower == c.toLower

/-- The regex body matches the whole remaining input (pattern was
end-anchored). -/
def bodyMatchExact : List Char → List Char → Bool
  | [], [] => true
  | p :: ps, c :: cs => charCI p c && bodyMatchExact ps cs
  | _, _ => false

/-- The regex body matches some leading segment of the input. -/
def bodyMatchPre : List Char → List Char → Bool
  | [], _ => true
  | p :: ps, c :: cs => charCI p c && bodyMatchPre ps cs
  | _, _ => false

/-- Strip a leading `^` anchor from a pattern. -/
def stripStart : List Char → Bool × List Char
  | '^' :: r => (true, r)
  | p => (false, p)

/-- Strip a trailing `$` anchor from a reversed pattern, returning the
body in original order. -/
def stripEndAux : List Char → Bool × List Char
  | '$' :: r => (true, r.reverse)
  | p => (false, p.reverse)

def stripEnd (p : List Char) : Bool × List Char := stripEndAux p.reverse

/-- Semantics of the `$regex` patterns (with `$options: "i"`) that the
theorems below evaluate: an optional leading `^` anchor, an optional
trailing `$` anchor, and a body of literal characters and `.` wildcards.
This agrees with Mongo's PCRE on every pattern built from a `metaFreeB`
filter value (every body character literal) and on the `.`-bearing
counterexample patterns; other PCRE constructs (quantifiers, classes,
groups, alternation, escapes) are outside this fragment and no theorem
evaluates the matcher on a pattern containing them. -/
def regexMatchCI (pat s : String) : Bool :=
  let sa := stripStart pat.data
  let ea := stripEnd sa.2
  let cs := s.data
  match sa.1, ea.1 with
  | true, true => bodyMatchExact ea.2 cs
  | true, false => bodyMatchPre ea.2 cs
  | false, true => cs.tails.any (fun t => bodyMatchExact ea.2 t)
  | false, false => cs.tails.any (fun t => bodyMatchPre ea.2 t)

def lowerL (l : List Char) : List Char := l.map Char.toLower

/-- Spec-side definition: case-insensitive whole-field equality of two
strings (what "case-insensitive exact match" means in the spec). -/
def eqCI (a b : String) : Bool := lowerL a.data == lowerL b.data

def isPrefixB : List Char → List Char → Bool
  | [], _ => true
  | x :: xs, y :: ys => x == y && isPrefixB xs ys
  | _ :: _, [] => false

/-- Spec-side definition: `q` occurs as a case-insensitive substring of
`s`. -/
def specSubstrCI (q s : String) : Bool :=
  (lowerL s.data).tails.any (fun t => isPrefixB (lowerL q.data) t)

/-- Spec-side definition: the document's `field` is a string in which `q`
occurs as a case-insensitive substring. -/
def fieldSubstrCI (d : Doc) (field q : String) : Bool :=
  match lookupV d field with
  | some (Value.vStr s) => specSubstrCI q s
  | _ => false

/-- The characters PCRE treats specially outside character classes. -/
def pcreMetaChars : List Char :=
  ['\\', '^', '$', '.', '[', ']', '|', '(', ')', '*', '+', '?', '\x7b', '\x7d']

/-- The filter value contains no PCRE regex metacharacter at all, so
pasting it into a pattern keeps every one of its characters literal. -/
def metaFreeB (s : String) : Bool :=
  s.data.all (fun ch => !pcreMetaChars.contains ch)

/-- Structural mirror of the `filter_query` dict built by
`list_homestays` (src/main.py lines 101-124): the optional `$or` list of
field/pattern regex clauses, the optional anchored country pattern, the
optional `price_per_night` range clause, and the optional
`max_guests: {$gte: _}` clause.  All regex clauses carry `$options: "i"`. -/
structure FilterQuery where
  textOr : Option (List (String × String))
  country : Option String
  priceGte : Option Rat
  priceLte : Option Rat
  guestsGte : Option Int
deriving DecidableEq

/-- Python truthiness of an optional string parameter (`if q:`):
false for both `None` and the empty string. -/
def truthy (o : Option String) : Bool :=
  match o with
  | none => false
  | some s => s != ""

/-- The query builder of `list_homestays`: translates the optional
request parameters into the Mongo filter dict. -/
def buildFilter (q country : Option String) (minPrice maxPrice : Option Rat)
    (guests : Option Int) : FilterQuery :=
  { textOr :=
      match q with
      | some s =>
        if s != "" then
          some [("title", s), ("description", s), ("location", s), ("country", s)]
        else none
      | none => none,
    country :=
      match country with
      | some s => if s != "" then some ("^" ++ s ++ "$") else none
      | none => none,
    priceGte := minPrice,
    priceLte := maxPrice,
    guestsGte := guests }

/-- A regex clause `{field: {$regex: pat, $options: "i"}}` against a
document: the field must be present, a string, and match. -/
def condRegex (d : Doc) (field pat : String) : Bool :=
  match lookupV d field with
  | some (Value.vStr s) => regexMatchCI pat s
  | _ => false

/-- Mongo `find` semantics of a built filter against one document: the
top-level clauses are conjoined, the `$or` list is disjoined. -/
def matchesFilter (f : FilterQuery) (d : Doc) : Bool :=
  (match f.textOr with
   | none => true
   | some clauses => clauses.any (fun fp => condRegex d fp.1 fp.2)) &&
  (match f.country with
   | none => true
   | some pat => condRegex d "country" pat) &&
  (match f.priceGte, f.priceLte with
   | none, none => true
   | gte, lte =>
     match lookupV d "price_per_night" with
     | some (Value.vNum p) =>
       (match gte with | some b => decide (b ≤ p) | none => true) &&
       (match lte with | some b => decide (p ≤ b) | none => true)
     | _ => false) &&
  (match f.guestsGte with
   | none => true
   | some n =>
     match lookupV d "max_guests" with
     | some (Value.vNum g) => decide ((n : Rat) ≤ g)
     | _ => false)

/-- Python `str()` of a stored value (only identifiers and strings are
exercised by the claims; the other renderings are plausible stand-ins). -/
def pyStr : Value → String
  | .vStr s => s
  | .vOid s => s
  | .vNum q => toString q
  | .vBool b => if b then "True" else "False"
  | .vDT _ => ""
  | .vNull => "None"
  | .vListStr _ => ""

def pad2 (n : Nat) : String :=
  if n < 10 then "0" ++ toString n else toString n

def pad4 (n : Nat) : String :=
  if n < 10 then "000" ++ toString n
  else if n < 100 then "00" ++ toString n
  else if n < 1000 then "0" ++ toString n
  else toString n

/-- Python `datetime.isoformat()`. -/
def isoString (t : DT) : String :=
  pad4 t.year ++ "-" ++ pad2 t.month ++ "-" ++ pad2 t.day ++ "T" ++
    pad2 t.hour ++ ":" ++ pad2 t.minute ++ ":" ++ pad2 t.second

/-- The per-value step of the serializer's datetime loop: values with an
`isoformat` method (exactly the date-time variant) are rendered, all
others are left alone. -/
def dtRender : Value → Value
  | .vDT t => .vStr (isoString t)
  | v => v

/-- Remove every entry stored under `k` (Python `dict.pop`; keys are
unique in a Python dict). -/
def removeKey : Doc → String → Doc
  | [], _ => []
  | (a, b) :: rest, k => if a == k then removeKey rest k else (a, b) :: removeKey rest k

/-- Replace the entry under `k` (used by in-place dict assignment). -/
def overwriteEntry (k : String) (v : Value) (kv : String × Value) : String × Value :=
  if kv.1 == k then (k, v) else kv

/-- Python `out[k] = v`: overwrite in place when the key exists, append
otherwise. -/
def setKey (d : Doc) (k : String) (v : Value) : Doc :=
  if hasKey d k then d.map (overwriteEntry k v) else d ++ [(k, v)]

/-- One step of the serializer's datetime loop over a field/value
entry. -/
def renderEntry (kv : String × Value) : String × Value := (kv.1, dtRender kv.2)

/-- `serialize_doc` (src/main.py lines 22-30): pop `_id` into a string
`id` field when present, then render every datetime value as its
ISO-8601 string. -/
def serialize_doc (d : Doc) : Doc :=
  let d1 :=
    match lookupV d "_id" with
    | some v => setKey (removeKey d "_id") "id" (Value.vStr (pyStr v))
    | none => d
  d1.map renderEntry

/-- Response of a successful `GET /api/homestays`: the filter the builder
produced, the limit argument handed to the store's `find`, and the
serialized result list. -/
structure ListResponse where
  filter : FilterQuery
  limitArg : Int
  results : List Doc
deriving DecidableEq

/-- Mongo cursor `limit(n)`: `0` means no limit, a negative `n` behaves
like its absolute value. -/
def mongoLimit (n : Int) (l : List Doc) : List Doc :=
  if n == 0 then l else l.take n.natAbs

/-- Default of the `limit` query parameter of `GET /api/homestays`. -/
def defaultLimit : Int := 24

/-- The `list_homestays` handler (src/main.py lines 89-127): the store
check first, then the query builder, then `find(filter).limit(int(limit))`
and serialization of every returned document.  `dbUp` is whether the
module-level `db` handle is set; `docs` is the content of the `homestay`
collection. -/
def list_homestays (dbUp : Bool) (docs : List Doc) (q country : Option String)
    (minPrice maxPrice : Option Rat) (guests : Option Int) (limit : Int) :
    Except (Nat × String) ListResponse :=
  if !dbUp then .error (500, "Database not configured")
  else
    let f := buildFilter q country minPrice maxPrice guests
    .ok { filter := f, limitArg := limit,
          results := (mongoLimit limit (docs.filter (fun d => matchesFilter f d))).map serialize_doc }

/-- `GET /api/homestays` with the `limit` parameter absent. -/
def list_homestays_noLimit (dbUp : Bool) (docs : List Doc) (q country : Option String)
    (minPrice maxPrice : Option Rat) (guests : Option Int) :
    Except (Nat × String) ListResponse :=
  list_homestays dbUp docs q country minPrice maxPrice guests defaultLimit

/-- The `featured_homestays` handler (src/main.py lines 130-135): the
store check first, then `find({}).limit(int(limit))` and serialization. -/
def featured_homestays (dbUp : Bool) (docs : List Doc) (limit : Int) :
    Except (Nat × String) (List Doc) :=
  if !dbUp then .error (500, "Database not configured")
  else .ok ((mongoLimit limit docs).map serialize_doc)

/-- Spec-side characterization: a homestay body satisfying every
declared field constraint (required fields present, price ≥ 0,
max_guests in 1-20, rating in 0-5 when given). -/
def homestayWellFormed (i : HomestayInput) : Bool :=
  i.title.isSome && i.location.isSome && i.country.isSome &&
  (match i.price_per_night with | some p => decide (0 ≤ p) | none => false) &&
  (match i.max_guests with | some g => decide (1 ≤ g ∧ g ≤ 20) | none => false) &&
  (match i.rating with | some r => decide (0 ≤ r ∧ r ≤ 5) | none => true)

/-- Spec-side characterization: a booking body satisfying every declared
field constraint. -/
def bookingWellFormed (i : BookingInput) : Bool :=
  i.homestay_id.isSome && i.guest_name.isSome &&
  (match i.guest_email with | some e => isValidEmail e | none => false) &&
  (match i.guests with | some g => decide (1 ≤ g ∧ g ≤ 20) | none => false) &&
  i.check_in.isSome && i.check_out.isSome

/-- Example stored listing whose title is `abc`. -/
def docAbc : Doc :=
  [("title", Value.vStr "abc"), ("location", Value.vStr "x"), ("country", Value.vStr "y")]

/-- Example stored listing with a Lakeside description. -/
def docLake : Doc :=
  [("title", Value.vStr "Cabin"), ("description", Value.vStr "Quiet Lakeside spot"),
   ("location", Value.vStr "Oslo"), ("country", Value.vStr "Norway")]

/-- A well-formed booking body differing only in its two date strings. -/
def bkInput (cin cout : String) : BookingInput :=
  { homestay_id := some "h1", guest_name := some "Aki", guest_email := some "aki@example.com",
    guests := some 2, check_in := some cin, check_out := some cout, notes := none }

/-- The record `bkInput` validates to. -/
def bkRecord (cin cout : String) : Booking :=
  { homestay_id := "h1", guest_name := "Aki", guest_email := "aki@example.com",
    guests := 2, check_in := cin, check_out := cout, notes := none }

/-- A homestay body with the listed title, price, guest and rating
fields and fixed valid remaining fields. -/
def hsInput (t : Option String) (p : Option Rat) (g : Option Int) (r : Option Rat) :
    HomestayInput :=
  { title := t, description := none, location := some "Kyoto", country := some "Japan",
    price_per_night := p, max_guests := g, amenities := none, images := none, rating := r }

/-- C1: for a booking body that passes the Booking schema and whose two
date strings both parse, creation answers the fixed 400 detail and
leaves the store untouched when check_out ≤ check_in, and persists the
booking and returns the new identifier with the created status when
check_out is strictly later. -/
theorem booking_date_range_checked (i : BookingInput) (store : List Booking) (b : Booking)
    (ci co : DT)
    (hv : validateBooking i = .ok b)
    (hci : fromisoformat b.check_in = some ci)
    (hco : fromisoformat b.check_out = some co) :
    (co.toKey ≤ ci.toKey →
      postBooking i store = (.httpErr 400 "check_out must be after check_in", store)) ∧
    (ci.toKey < co.toKey →
      postBooking i store = (.created (newId store.length), store ++ [b])) := by
  simp only [postBooking, hv, hci, hco]
  refine ⟨fun h => ?_, fun h => ?_⟩
  · rw [if_pos h]
  · rw [if_neg (by omega)]

/-- C1 witness: equal dates are rejected with the fixed detail and
nothing is stored; a check_out one day later is persisted. -/
theorem booking_date_range_checked_witness :
    (postBooking (bkInput "2024-01-02" "2024-01-02") [] =
      (.httpErr 400 "check_out must be after check_in", [])) ∧
    (postBooking (bkInput "2024-01-01" "2024-01-02") [] =
      (.created "oid0", [bkRecord "2024-01-01" "2024-01-02"])) :=
  ⟨(booking_date_range_checked (bkInput "2024-01-02" "2024-01-02") []
      (bkRecord "2024-01-02" "2024-01-02") ⟨2024,1,2,0,0,0⟩ ⟨2024,1,2,0,0,0⟩
      rfl rfl rfl).1 (by decide),
   (booking_date_range_checked (bkInput "2024-01-01" "2024-01-02") []
      (bkRecord "2024-01-01" "2024-01-02") ⟨2024,1,1,0,0,0⟩ ⟨2024,1,2,0,0,0⟩
      rfl rfl rfl).2 (by decide)⟩

/-- C2 counterexample: the string 2024-01-01T10:00:00 is not an ISO
calendar date in YYYY-MM-DD format, yet the handler accepts it (Python
`fromisoformat` parses it) and persists the booking instead of failing
with the MalformedDate detail. -/
theorem booking_malformed_date_counterexample :
    specCalendarDate "2024-01-01T10:00:00" = false ∧
    postBooking (bkInput "2024-01-01T10:00:00" "2024-01-02") [] =
      (.created "oid0", [bkRecord "2024-01-01T10:00:00" "2024-01-02"]) :=
  ⟨rfl, rfl⟩

/-- C2 amended: for a body that passes the Booking schema, creation
fails with the fixed 400 malformed-date detail — leaving the store
untouched — exactly when at least one of check_in and check_out is not
accepted by Python `fromisoformat` (which accepts every valid
`YYYY-MM-DD` string but also date-time strings beyond that format). -/
theorem booking_malformed_date_iff (i : BookingInput) (store : List Booking) (b : Booking)
    (hv : validateBooking i = .ok b) :
    postBooking i store = (.httpErr 400 "Invalid date format. Use YYYY-MM-DD", store) ↔
      (fromisoformat b.check_in = none ∨ fromisoformat b.check_out = none) := by
  simp only [postBooking, hv]
  cases hci : fromisoformat b.check_in with
  | none => simp
  | some ci =>
    cases hco : fromisoformat b.check_out with
    | none => simp
    | some co =>
      simp only [reduceCtorEq, or_self, iff_false]
      by_cases hle : co.toKey ≤ ci.toKey
      · rw [if_pos hle]
        intro h
        have h1 : BookingOutcome.httpErr 400 "check_out must be after check_in" =
            BookingOutcome.httpErr 400 "Invalid date format. Use YYYY-MM-DD" :=
          congrArg Prod.fst h
        exact absurd h1 (by decide)
      · rw [if_neg hle]
        intro h
        simp at h

/-- C2 witness: a slash-formatted date is answered with the fixed 400
detail and nothing is stored. -/
theorem booking_malformed_date_iff_witness :
    postBooking (bkInput "01/02/2024" "2024-01-05") [] =
      (.httpErr 400 "Invalid date format. Use YYYY-MM-DD", []) :=
  (booking_malformed_date_iff (bkInput "01/02/2024" "2024-01-05") []
      (bkRecord "01/02/2024" "2024-01-05") rfl).mpr (Or.inl rfl)

/-- C3 counterexample: a homestay body whose title is the empty string
passes validation and yields a record with an empty title — the schema
declares `title: str` with no non-emptiness constraint. -/
theorem homestay_empty_title_accepted :
    validateHomestay (hsInput (some "") (some 50) (some 2) none) =
      .ok { title := "", description := none, location := "Kyoto", country := "Japan",
            price_per_night := 50, max_guests := 2, amenities := [], images := [],
            rating := none } := rfl

/-- C3 amended: the title field is required — a body with no title is
rejected with a validation error naming `title` — but the empty string
satisfies the declared constraint, so empty-titled listings can be
created. -/
theorem homestay_title_required (i : HomestayInput) (h : i.title = none) :
    ∃ fs, validateHomestay i = .error fs ∧ "title" ∈ fs := by
  obtain ⟨t, ds, l, c, p, g, am, im, r⟩ := i
  cases t with
  | some t0 => exact absurd h (by simp)
  | none => exact ⟨_, rfl, by simp [homestayErrors]⟩

/-- C3 witness: a concrete body with no title is rejected naming
`title`. -/
theorem homestay_title_required_witness :
    ∃ fs, validateHomestay (hsInput none (some 50) (some 2) none) = .error fs ∧
      "title" ∈ fs :=
  homestay_title_required (hsInput none (some 50) (some 2) none) rfl

/-- Any violated field is reported: when a field name occurs in the
error list, Homestay validation returns an error list containing it. -/
theorem validateHomestay_error_of_mem {i : HomestayInput} {f : String}
    (h : f ∈ homestayErrors i) :
    ∃ fs, validateHomestay i = .error fs ∧ f ∈ fs := by
  refine ⟨homestayErrors i, ?_, h⟩
  have hne : homestayErrors i ≠ [] := List.ne_nil_of_mem h
  unfold validateHomestay
  split
  · rw [if_neg hne]
  · rfl

/-- Booking analogue of `validateHomestay_error_of_mem`. -/
theorem validateBooking_error_of_mem {i : BookingInput} {f : String}
    (h : f ∈ bookingErrors i) :
    ∃ fs, validateBooking i = .error fs ∧ f ∈ fs := by
  refine ⟨bookingErrors i, ?_, h⟩
  have hne : bookingErrors i ≠ [] := List.ne_nil_of_mem h
  unfold validateBooking
  split
  · rw [if_neg hne]
  · rfl

/-- `breakAt` finds nothing when the character does not occur. -/
theorem breakAt_eq_none {ch : Char} : ∀ {l : List Char},
    (∀ c ∈ l, (c == ch) = false) → breakAt ch l = none
  | [], _ => rfl
  | c :: cs, h => by
    have hc := h c (List.mem_cons_self c cs)
    simp [breakAt, hc, breakAt_eq_none (fun x hx => h x (List.mem_cons_of_mem _ hx))]

/-- A string with no `@` character fails the email-syntax check. -/
theorem isValidEmail_eq_false {e : String}
    (h : e.data.all (fun ch => ch != '@') = true) : isValidEmail e = false := by
  have hh : ∀ c ∈ e.data, (c == '@') = false := by
    intro c hc
    have := List.all_eq_true.mp h c hc
    simpa using this
  unfold isValidEmail
  rw [breakAt_eq_none hh]


/-- A homestay body satisfying every declared field constraint validates
to a record. -/
theorem validateHomestay_ok_of_wellFormed {i : HomestayInput}
    (h : homestayWellFormed i = true) : ∃ hr, validateHomestay i = .ok hr := by
  obtain ⟨t, ds, l, c, p, g, am, im, r⟩ := i
  cases t with
  | none => simp [homestayWellFormed] at h
  | some t0 =>
  cases l with
  | none => simp [homestayWellFormed] at h
  | some l0 =>
  cases c with
  | none => simp [homestayWellFormed] at h
  | some c0 =>
  cases p with
  | none => simp [homestayWellFormed] at h
  | some p0 =>
  cases g with
  | none => simp [homestayWellFormed] at h
  | some g0 =>
  cases r with
  | none =>
    simp [homestayWellFormed] at h
    have hp : 0 ≤ p0 := by tauto
    have hg1 : 1 ≤ g0 := by tauto
    have hg2 : g0 ≤ 20 := by tauto
    have herr : homestayErrors
        ⟨some t0, ds, some l0, some c0, some p0, some g0, am, im, none⟩ = [] := by
      simp [homestayErrors, hp, hg1, hg2]
    exact ⟨{ title := t0, description := ds, location := l0, country := c0,
             price_per_night := p0, max_guests := g0, amenities := am.getD [],
             images := im.getD [], rating := none },
           by simp [validateHomestay, herr]⟩
  | some r0 =>
    simp [homestayWellFormed] at h
    have hp : 0 ≤ p0 := by tauto
    have hg1 : 1 ≤ g0 := by tauto
    have hg2 : g0 ≤ 20 := by tauto
    have hr1 : 0 ≤ r0 := by tauto
    have hr2 : r0 ≤ 5 := by tauto
    have herr : homestayErrors
        ⟨some t0, ds, some l0, some c0, some p0, some g0, am, im, some r0⟩ = [] := by
      simp [homestayErrors, hp, hg1, hg2, hr1, hr2]
    exact ⟨{ title := t0, description := ds, location := l0, country := c0,
             price_per_night := p0, max_guests := g0, amenities := am.getD [],
             images := im.getD [], rating := some r0 },
           by simp [validateHomestay, herr]⟩

/-- A booking body satisfying every declared field constraint validates
to a record. -/
theorem validateBooking_ok_of_wellFormed {i : BookingInput}
    (h : bookingWellFormed i = true) : ∃ b, validateBooking i = .ok b := by
  obtain ⟨hid, gn, ge, gs, cin, cout, nt⟩ := i
  cases hid with
  | none => simp [bookingWellFormed] at h
  | some h0 =>
  cases gn with
  | none => simp [bookingWellFormed] at h
  | some n0 =>
  cases ge with
  | none => simp [bookingWellFormed] at h
  | some e0 =>
  cases gs with
  | none => simp [bookingWellFormed] at h
  | some g0 =>
  cases cin with
  | none => simp [bookingWellFormed] at h
  | some ci0 =>
  cases cout with
  | none => simp [bookingWellFormed] at h
  | some co0 =>
  simp [bookingWellFormed] at h
  have he : isValidEmail e0 = true := by tauto
  have hg1 : 1 ≤ g0 := by tauto
  have hg2 : g0 ≤ 20 := by tauto
  have herr : bookingErrors
      ⟨some h0, some n0, some e0, some g0, some ci0, some co0, nt⟩ = [] := by
    simp [bookingErrors, he, hg1, hg2]
  exact ⟨{ homestay_id := h0, guest_name := n0, guest_email := e0, guests := g0,
           check_in := ci0, check_out := co0, notes := nt },
         by simp [validateBooking, herr]⟩

/-- C4: a creation body violating a declared field constraint —
homestay price_per_night below 0, max_guests outside 1-20, rating
outside 0-5, a missing required field, a booking guest_email without an
`@`, or booking guests outside 1-20 — is rejected with a structured
error naming that field and yields no record; a body satisfying every
declared field constraint validates to a fully-typed record. -/
theorem field_constraint_enforcement :
    (∀ (i : HomestayInput) (p : Rat), i.price_per_night = some p → p < 0 →
      ∃ fs, validateHomestay i = .error fs ∧ "price_per_night" ∈ fs) ∧
    (∀ (i : HomestayInput) (g : Int), i.max_guests = some g → (g < 1 ∨ 20 < g) →
      ∃ fs, validateHomestay i = .error fs ∧ "max_guests" ∈ fs) ∧
    (∀ (i : HomestayInput) (r : Rat), i.rating = some r → (r < 0 ∨ 5 < r) →
      ∃ fs, validateHomestay i = .error fs ∧ "rating" ∈ fs) ∧
    (∀ i : HomestayInput,
      (i.title = none → ∃ fs, validateHomestay i = .error fs ∧ "title" ∈ fs) ∧
      (i.location = none → ∃ fs, validateHomestay i = .error fs ∧ "location" ∈ fs) ∧
      (i.country = none → ∃ fs, validateHomestay i = .error fs ∧ "country" ∈ fs) ∧
      (i.price_per_night = none →
        ∃ fs, validateHomestay i = .error fs ∧ "price_per_night" ∈ fs) ∧
      (i.max_guests = none → ∃ fs, validateHomestay i = .error fs ∧ "max_guests" ∈ fs)) ∧
    (∀ (i : BookingInput) (e : String), i.guest_email = some e →
      e.data.all (fun ch => ch != '@') = true →
      ∃ fs, validateBooking i = .error fs ∧ "guest_email" ∈ fs) ∧
    (∀ (i : BookingInput) (g : Int), i.guests = some g → (g < 1 ∨ 20 < g) →
      ∃ fs, validateBooking i = .error fs ∧ "guests" ∈ fs) ∧
    (∀ i : HomestayInput, homestayWellFormed i = true →
      ∃ hr, validateHomestay i = .ok hr) ∧
    (∀ i : BookingInput, bookingWellFormed i = true →
      ∃ b, validateBooking i = .ok b) := by
  refine ⟨?_, ?_, ?_, ?_, ?_, ?_, fun i h => validateHomestay_ok_of_wellFormed h,
    fun i h => validateBooking_ok_of_wellFormed h⟩
  · intro i p hp h
    exact validateHomestay_error_of_mem (by simp [homestayErrors, hp, h])
  · intro i g hg h
    rcases h with h | h <;>
      exact validateHomestay_error_of_mem (by simp [homestayErrors, hg, h])
  · intro i r hr h
    rcases h with h | h <;>
      exact validateHomestay_error_of_mem (by simp [homestayErrors, hr, h])
  · intro i
    refine ⟨fun h => ?_, fun h => ?_, fun h => ?_, fun h => ?_, fun h => ?_⟩ <;>
      exact validateHomestay_error_of_mem (by simp [homestayErrors, h])
  · intro i e he hall
    exact validateBooking_error_of_mem
      (by simp [bookingErrors, he, isValidEmail_eq_false hall])
  · intro i g hg h
    rcases h with h | h <;>
      exact validateBooking_error_of_mem (by simp [bookingErrors, hg, h])

/-- C4 witness: a negative price is rejected naming price_per_night,
21 guests are rejected naming max_guests, an email without an `@` is
rejected naming guest_email, and a body meeting every constraint
validates. -/
theorem field_constraint_enforcement_witness :
    (∃ fs, validateHomestay (hsInput (some "Casa") (some (-1)) (some 2) none) = .error fs ∧
      "price_per_night" ∈ fs) ∧
    (∃ fs, validateHomestay (hsInput (some "Casa") (some 50) (some 21) none) = .error fs ∧
      "max_guests" ∈ fs) ∧
    (∃ fs, validateBooking
        { homestay_id := some "h1", guest_name := some "Aki",
          guest_email := some "akiexample.com", guests := some 2,
          check_in := some "2024-01-01", check_out := some "2024-01-02",
          notes := none } = .error fs ∧ "guest_email" ∈ fs) ∧
    (∃ hr, validateHomestay (hsInput (some "Casa") (some 50) (some 2) (some 4)) = .ok hr) :=
  ⟨field_constraint_enforcement.1 _ (-1) rfl (by norm_num),
   field_constraint_enforcement.2.1 _ 21 rfl (by omega),
   field_constraint_enforcement.2.2.2.2.1 _ "akiexample.com" rfl (by decide),
   field_constraint_enforcement.2.2.2.2.2.2.1 _ (by decide)⟩

/-- Stripping a leading caret. -/
theorem stripStart_caret (l : List Char) : stripStart ('^' :: l) = (true, l) := rfl

/-- A pattern not starting with a caret is left alone. -/
theorem stripStart_of_ne (l : List Char) (h : l.head? ≠ some '^') :
    stripStart l = (false, l) := by
  unfold stripStart
  split
  · simp_all
  · rfl

/-- Stripping a leading dollar from the reversed pattern. -/
theorem stripEndAux_dollar (l : List Char) :
    stripEndAux ('$' :: l) = (true, l.reverse) := rfl

/-- A reversed pattern not starting with a dollar is only re-reversed. -/
theorem stripEndAux_of_ne (l : List Char) (h : l.head? ≠ some '$') :
    stripEndAux l = (false, l.reverse) := by
  unfold stripEndAux
  split
  · simp_all
  · rfl

/-- Stripping a trailing dollar anchor. -/
theorem stripEnd_append_dollar (l : List Char) : stripEnd (l ++ ['$']) = (true, l) := by
  unfold stripEnd
  rw [show (l ++ ['$']).reverse = '$' :: l.reverse by simp]
  rw [stripEndAux_dollar]
  simp

/-- A pattern not ending in a dollar keeps its body. -/
theorem stripEnd_of_ne (l : List Char) (h : l.reverse.head? ≠ some '$') :
    stripEnd l = (false, l) := by
  unfold stripEnd
  rw [stripEndAux_of_ne l.reverse h]
  simp

/-- On a wildcard-free body, the end-anchored matcher is case-insensitive
equality. -/
theorem bodyMatchExact_lit : ∀ (body cs : List Char), (∀ ch ∈ body, ch ≠ '.') →
    bodyMatchExact body cs = (lowerL body == lowerL cs)
  | [], [], _ => by simp [bodyMatchExact, lowerL]
  | [], _ :: _, _ => by simp [bodyMatchExact, lowerL]
  | _ :: _, [], _ => by simp [bodyMatchExact, lowerL]
  | p :: ps, c :: cs, h => by
    have hp : (p == '.') = false := by simpa using h p (List.mem_cons_self p ps)
    simp [bodyMatchExact, charCI, hp, lowerL,
      bodyMatchExact_lit ps cs (fun x hx => h x (List.mem_cons_of_mem _ hx))]

/-- On a wildcard-free body, the unanchored-end matcher is a
case-insensitive prefix test. -/
theorem bodyMatchPre_lit : ∀ (body cs : List Char), (∀ ch ∈ body, ch ≠ '.') →
    bodyMatchPre body cs = isPrefixB (lowerL body) (lowerL cs)
  | [], _, _ => by simp [bodyMatchPre, isPrefixB, lowerL]
  | _ :: _, [], _ => by simp [bodyMatchPre, isPrefixB, lowerL]
  | p :: ps, c :: cs, h => by
    have hp : (p == '.') = false := by simpa using h p (List.mem_cons_self p ps)
    simp [bodyMatchPre, charCI, hp, isPrefixB, lowerL,
      bodyMatchPre_lit ps cs (fun x hx => h x (List.mem_cons_of_mem _ hx))]

/-- Unpacking `metaFreeB`: in particular the three metacharacters the
matching engine interprets are absent. -/
theorem metaFree_spec {s : String} (h : metaFreeB s = true) :
    ∀ ch ∈ s.data, ch ≠ '.' ∧ ch ≠ '^' ∧ ch ≠ '$' := by
  intro ch hch
  have hx := List.all_eq_true.mp h ch hch
  refine ⟨?_, ?_, ?_⟩ <;> intro heq <;> subst heq <;> exact absurd hx (by decide)

/-- A metacharacter-free pattern does not start with a caret. -/
theorem head_ne_of_metaFree {q : String} (h : metaFreeB q = true) :
    q.data.head? ≠ some '^' := by
  cases hq : q.data with
  | nil => simp
  | cons a l =>
    have ha : a ∈ q.data := by rw [hq]; exact List.mem_cons_self a l
    simp [(metaFree_spec h a ha).2.1]

/-- A metacharacter-free pattern does not end with a dollar. -/
theorem revhead_ne_of_metaFree {q : String} (h : metaFreeB q = true) :
    q.data.reverse.head? ≠ some '$' := by
  cases hq : q.data.reverse with
  | nil => simp
  | cons a l =>
    have ha : a ∈ q.data := by
      rw [← List.mem_reverse, hq]
      exact List.mem_cons_self a l
    simp [(metaFree_spec h a ha).2.2]

/-- The code's anchored country pattern, on a metacharacter-free filter
value, is exactly case-insensitive whole-string equality. -/
theorem regexMatchCI_anchored_lit (c s : String) (h : metaFreeB c = true) :
    regexMatchCI ("^" ++ c ++ "$") s = eqCI c s := by
  have hdot : ∀ ch ∈ c.data, ch ≠ '.' := fun ch hch => ((metaFree_spec h) ch hch).1
  have hdata : ("^" ++ c ++ "$").data = '^' :: (c.data ++ ['$']) := by
    obtain ⟨cl⟩ := c
    rfl
  simp only [regexMatchCI, hdata, stripStart_caret, stripEnd_append_dollar]
  exact bodyMatchExact_lit c.data s.data hdot

/-- An unanchored metacharacter-free pattern matches exactly when it is a
case-insensitive prefix of some tail of the subject. -/
theorem regexMatchCI_unanchored_lit (q s : String) (h : metaFreeB q = true) :
    regexMatchCI q s = s.data.tails.any (fun t => isPrefixB (lowerL q.data) (lowerL t)) := by
  have hdot : ∀ ch ∈ q.data, ch ≠ '.' := fun ch hch => ((metaFree_spec h) ch hch).1
  simp only [regexMatchCI, stripStart_of_ne q.data (head_ne_of_metaFree h),
    stripEnd_of_ne q.data (revhead_ne_of_metaFree h)]
  congr 1
  funext t
  exact bodyMatchPre_lit q.data t hdot

/-- The spec-side substring test, restated over tails of the raw
subject. -/
theorem specSubstrCI_eq (q s : String) :
    specSubstrCI q s = s.data.tails.any (fun t => isPrefixB (lowerL q.data) (lowerL t)) := by
  unfold specSubstrCI lowerL
  rw [List.map_tails, List.any_map]
  rfl

/-- An unanchored metacharacter-free pattern is exactly the
case-insensitive substring test. -/
theorem regexMatchCI_substr (q s : String) (h : metaFreeB q = true) :
    regexMatchCI q s = specSubstrCI q s := by
  rw [regexMatchCI_unanchored_lit q s h, specSubstrCI_eq]

/-- C5 counterexample: the filter value Jap.n is interpolated unescaped
into the anchored regex, so a document with country Japan matches the
filter although the two strings are not equal up to case — the clause is
not an exact whole-field match for every filter value. -/
theorem country_filter_metachar_counterexample :
    matchesFilter (buildFilter none (some "Jap.n") none none none)
      [("country", Value.vStr "Japan")] = true ∧
    eqCI "Jap.n" "Japan" = false := ⟨rfl, rfl⟩

/-- C5 amended: for every non-empty country filter value free of regex
metacharacters, the built clause is an anchored case-insensitive exact
whole-field match on the country field: a document matches iff its
country field is a string equal to the value up to case (so japan
matches the filter Japan and Japanese Alps does not); a value containing
metacharacters is instead interpreted as an unescaped anchored regex. -/
theorem country_filter_exact_ci (c : String) (hne : c ≠ "") (hm : metaFreeB c = true)
    (d : Doc) :
    matchesFilter (buildFilter none (some c) none none none) d =
      (match lookupV d "country" with
       | some (Value.vStr s) => eqCI c s
       | _ => false) := by
  have hcb : (c != "") = true := by simpa using hne
  simp only [buildFilter, matchesFilter, hcb, if_true, Bool.true_and, Bool.and_true]
  unfold condRegex
  cases hlk : lookupV d "country" with
  | none => rfl
  | some v =>
    cases v with
    | vStr s => exact regexMatchCI_anchored_lit c s hm
    | vNum x => rfl
    | vBool b => rfl
    | vDT t => rfl
    | vOid s => rfl
    | vNull => rfl
    | vListStr l => rfl

/-- C5 witness: with filter value Japan, a stored country japan matches
and a stored country Japanese Alps does not. -/
theorem country_filter_exact_ci_witness :
    matchesFilter (buildFilter none (some "Japan") none none none)
      [("country", Value.vStr "japan")] = true ∧
    matchesFilter (buildFilter none (some "Japan") none none none)
      [("country", Value.vStr "Japanese Alps")] = false :=
  ⟨(country_filter_exact_ci "Japan" (by decide) (by decide)
      [("country", Value.vStr "japan")]).trans (by decide),
   (country_filter_exact_ci "Japan" (by decide) (by decide)
      [("country", Value.vStr "Japanese Alps")]).trans (by decide)⟩

/-- C6 counterexample: the free-text value a.c is pasted into an
unescaped regex, so the predicate matches a document whose title is abc
although a.c does not occur as a case-insensitive substring of any of
the four searched fields. -/
theorem text_query_metachar_counterexample :
    matchesFilter (buildFilter (some "a.c") none none none none) docAbc = true ∧
    (fieldSubstrCI docAbc "title" "a.c" || fieldSubstrCI docAbc "description" "a.c" ||
     fieldSubstrCI docAbc "location" "a.c" || fieldSubstrCI docAbc "country" "a.c") =
      false := ⟨rfl, rfl⟩

/-- C6 amended: for a non-empty free-text value q free of regex
metacharacters, the built predicate matches exactly the documents in
which q occurs as a case-insensitive substring of at least one of title,
description, location and country (OR-combined); all present filters are
combined with logical AND; and when every filter parameter is absent the
built filter is empty and matches every document. A q containing
metacharacters is instead interpreted as an unescaped regex. -/
theorem text_query_filter_semantics :
    (∀ q : String, q ≠ "" → metaFreeB q = true → ∀ d : Doc,
      matchesFilter (buildFilter (some q) none none none none) d =
        (fieldSubstrCI d "title" q || fieldSubstrCI d "description" q ||
         fieldSubstrCI d "location" q || fieldSubstrCI d "country" q)) ∧
    (∀ (qo co : Option String) (mn mx : Option Rat) (g : Option Int) (d : Doc),
      matchesFilter (buildFilter qo co mn mx g) d =
        (matchesFilter (buildFilter qo none none none none) d &&
         matchesFilter (buildFilter none co none none none) d &&
         matchesFilter (buildFilter none none mn mx none) d &&
         matchesFilter (buildFilter none none none none g) d)) ∧
    (∀ d : Doc, matchesFilter (buildFilter none none none none none) d = true) := by
  refine ⟨?_, ?_, fun d => rfl⟩
  · intro q hne hm d
    have hqb : (q != "") = true := by simpa using hne
    have hc : ∀ f : String, condRegex d f q = fieldSubstrCI d f q := by
      intro f
      unfold condRegex fieldSubstrCI
      cases lookupV d f with
      | none => rfl
      | some v =>
        cases v with
        | vStr s => exact regexMatchCI_substr q s hm
        | vNum x => rfl
        | vBool b => rfl
        | vDT t => rfl
        | vOid s => rfl
        | vNull => rfl
        | vListStr l => rfl
    simp only [buildFilter, matchesFilter, hqb, if_true, Bool.true_and, Bool.and_true,
      List.any_cons, List.any_nil, Bool.or_false, hc, Bool.or_assoc]
  · intro qo co mn mx g d
    simp only [buildFilter, matchesFilter, Bool.true_and, Bool.and_true]

/-- C6 witness: the free-text value lake matches the document whose
description contains Lakeside, and not a document containing the term in
none of the four searched fields. -/
theorem text_query_filter_semantics_witness :
    matchesFilter (buildFilter (some "lake") none none none none) docLake = true ∧
    matchesFilter (buildFilter (some "lake") none none none none) docAbc = false :=
  ⟨(text_query_filter_semantics.1 "lake" (by decide) (by decide) docLake).trans (by decide),
   (text_query_filter_semantics.1 "lake" (by decide) (by decide) docAbc).trans (by decide)⟩

/-- Looking a key up after the datetime loop renders the stored value. -/
theorem lookupV_map_render : ∀ (d : Doc) (k : String),
    lookupV (d.map renderEntry) k = (lookupV d k).map dtRender
  | [], _ => rfl
  | (a, b) :: rest, k => by
    by_cases h : a == k
    · simp [lookupV, renderEntry, h]
    · simp only [List.map_cons, renderEntry, lookupV, h]
      exact lookupV_map_render rest k

/-- The datetime loop does not change which keys are present. -/
theorem hasKey_map_render (d : Doc) (k : String) :
    hasKey (d.map renderEntry) k = hasKey d k := by
  unfold hasKey
  rw [List.any_map]
  rfl

/-- Key lookup fails exactly when the key is absent. -/
theorem lookupV_eq_none_iff : ∀ (d : Doc) (k : String),
    lookupV d k = none ↔ hasKey d k = false
  | [], _ => by simp [lookupV, hasKey]
  | (a, b) :: rest, k => by
    by_cases h : a == k
    · simp [lookupV, hasKey, h]
    · simp only [lookupV, hasKey, List.any_cons, h, if_neg, Bool.false_or]
      exact lookupV_eq_none_iff rest k

/-- Removing one key leaves lookups of other keys unchanged. -/
theorem lookupV_removeKey_ne : ∀ (d : Doc) (k k2 : String), k ≠ k2 →
    lookupV (removeKey d k2) k = lookupV d k
  | [], _, _, _ => rfl
  | (a, b) :: rest, k, k2, h => by
    have ih := lookupV_removeKey_ne rest k k2 h
    by_cases ha : a = k2
    · simp [removeKey, lookupV, ha, Ne.symm h, ih]
    · by_cases hak : a = k
      · simp [removeKey, lookupV, ha, hak, h]
      · simp [removeKey, lookupV, ha, hak, ih]

/-- After removing a key it is gone. -/
theorem hasKey_removeKey_self : ∀ (d : Doc) (k : String),
    hasKey (removeKey d k) k = false
  | [], _ => rfl
  | (a, b) :: rest, k => by
    have ih : hasKey (removeKey rest k) k = false := hasKey_removeKey_self rest k
    by_cases ha : a = k
    · simpa [removeKey, ha] using ih
    · simpa [removeKey, hasKey, List.any_cons, ha] using ih

/-- Removing one key does not affect the presence of another. -/
theorem hasKey_removeKey_ne : ∀ (d : Doc) (k k2 : String), k ≠ k2 →
    hasKey (removeKey d k2) k = hasKey d k
  | [], _, _, _ => rfl
  | (a, b) :: rest, k, k2, h => by
    have ih := hasKey_removeKey_ne rest k k2 h
    by_cases ha : a = k2
    · simp only [removeKey, hasKey, List.any_cons] at ih ⊢
      simp [ha, Ne.symm h, ih]
    · simp only [removeKey, hasKey, List.any_cons] at ih ⊢
      simp [ha, ih]

/-- A fresh entry appended at the end is found when its key was
absent. -/
theorem lookupV_append_self : ∀ (d : Doc) (k : String) (v : Value),
    lookupV d k = none → lookupV (d ++ [(k, v)]) k = some v
  | [], k, v, _ => by simp [lookupV]
  | (a, b) :: rest, k, v, h => by
    by_cases ha : a == k
    · simp [lookupV, ha] at h
    · simp [lookupV, ha] at h ⊢
      exact lookupV_append_self rest k v h

/-- Appending an entry under another key leaves lookups unchanged. -/
theorem lookupV_append_ne : ∀ (d : Doc) (k k2 : String) (v : Value), k ≠ k2 →
    lookupV (d ++ [(k2, v)]) k = lookupV d k
  | [], k, k2, v, h => by simp [lookupV, Ne.symm h]
  | (a, b) :: rest, k, k2, v, h => by
    by_cases ha : a == k
    · simp [lookupV, ha]
    · simp [lookupV, ha]
      exact lookupV_append_ne rest k k2 v h

/-- A key is present exactly when its lookup succeeds. -/
theorem hasKey_eq_isSome : ∀ (d : Doc) (k : String),
    hasKey d k = (lookupV d k).isSome
  | [], _ => rfl
  | (a, b) :: rest, k => by
    by_cases ha : a == k
    · simp [hasKey, lookupV, ha]
    · simp [hasKey, lookupV, ha]
      exact hasKey_eq_isSome rest k

/-- Reduction of `overwriteEntry` at a matching key. -/
theorem overwriteEntry_eq_of (k : String) (v : Value) (a : String) (b : Value)
    (h : (a == k) = true) : overwriteEntry k v (a, b) = (k, v) := by
  simp [overwriteEntry, h]

/-- Reduction of `overwriteEntry` at a non-matching key. -/
theorem overwriteEntry_ne_of (k : String) (v : Value) (a : String) (b : Value)
    (h : (a == k) = false) : overwriteEntry k v (a, b) = (a, b) := by
  simp [overwriteEntry, h]

/-- Overwriting one key in place leaves lookups of other keys
unchanged. -/
theorem lookupV_map_overwrite : ∀ (d : Doc) (k k2 : String) (v : Value), k ≠ k2 →
    lookupV (d.map (overwriteEntry k2 v)) k = lookupV d k
  | [], _, _, _, _ => rfl
  | (a, b) :: rest, k, k2, v, h => by
    have ih := lookupV_map_overwrite rest k k2 v h
    by_cases ha : a = k2
    · have ha2 : (a == k2) = true := by simp [ha]
      rw [List.map_cons, overwriteEntry_eq_of _ _ _ _ ha2]
      simp [lookupV, ha, Ne.symm h, ih]
    · have ha2 : (a == k2) = false := by simp [ha]
      rw [List.map_cons, overwriteEntry_ne_of _ _ _ _ ha2]
      by_cases hak : a = k
      · simp [lookupV, hak]
      · simp [lookupV, hak, ih]

/-- Overwriting one key in place does not change which keys are
present. -/
theorem hasKey_map_overwrite (d : Doc) (k k2 : String) (v : Value) (h : k ≠ k2) :
    hasKey (d.map (overwriteEntry k2 v)) k = hasKey d k := by
  rw [hasKey_eq_isSome, hasKey_eq_isSome, lookupV_map_overwrite d k k2 v h]

/-- Setting one key leaves lookups of other keys unchanged. -/
theorem lookupV_setKey_ne (d : Doc) (k k2 : String) (v : Value) (h : k ≠ k2) :
    lookupV (setKey d k2 v) k = lookupV d k := by
  unfold setKey
  by_cases hk : hasKey d k2
  · simp only [hk, if_pos]
    exact lookupV_map_overwrite d k k2 v h
  · simp only [hk, Bool.false_eq_true, if_neg, not_false_eq_true]
    exact lookupV_append_ne d k k2 v h

/-- Setting one key does not affect the presence of another. -/
theorem hasKey_setKey_ne (d : Doc) (k k2 : String) (v : Value) (h : k ≠ k2) :
    hasKey (setKey d k2 v) k = hasKey d k := by
  unfold setKey
  by_cases hk : hasKey d k2
  · simp only [hk, if_pos]
    exact hasKey_map_overwrite d k k2 v h
  · simp only [hk, Bool.false_eq_true, if_neg, not_false_eq_true]
    unfold hasKey
    rw [List.any_append]
    simp [Ne.symm h]

/-- Setting an absent key appends it. -/
theorem setKey_eq_append (d : Doc) (k : String) (v : Value) (h : hasKey d k = false) :
    setKey d k v = d ++ [(k, v)] := by
  simp [setKey, h]

/-- The per-value datetime rendering is idempotent: a rendered value has
no datetime left. -/
theorem dtRender_idem (v : Value) : dtRender (dtRender v) = dtRender v := by
  cases v <;> rfl

/-- The datetime loop is idempotent. -/
theorem map_render_idem (d : Doc) :
    (d.map renderEntry).map renderEntry = d.map renderEntry := by
  rw [List.map_map]
  apply List.map_congr_left
  intro kv _
  show renderEntry (renderEntry kv) = renderEntry kv
  unfold renderEntry
  simp [dtRender_idem]

/-- The serializer is idempotent on every document. -/
theorem serialize_doc_idem (d : Doc) : serialize_doc (serialize_doc d) = serialize_doc d := by
  cases hid : lookupV d "_id" with
  | none =>
    have h1 : serialize_doc d = d.map renderEntry := by
      simp only [serialize_doc, hid]
    rw [h1]
    have h2 : lookupV (d.map renderEntry) "_id" = none := by
      rw [lookupV_map_render, hid]; rfl
    simp only [serialize_doc, h2]
    exact map_render_idem d
  | some v =>
    have h1 : serialize_doc d =
        (setKey (removeKey d "_id") "id" (Value.vStr (pyStr v))).map renderEntry := by
      simp only [serialize_doc, hid]
    rw [h1]
    have hrm : lookupV (removeKey d "_id") "_id" = none :=
      (lookupV_eq_none_iff _ _).mpr (hasKey_removeKey_self d "_id")
    have h2 : lookupV ((setKey (removeKey d "_id") "id"
        (Value.vStr (pyStr v))).map renderEntry) "_id" = none := by
      rw [lookupV_map_render, lookupV_setKey_ne _ _ _ _ (by decide : "_id" ≠ "id"), hrm]
      rfl
    simp only [serialize_doc, h2]
    exact map_render_idem _

/-- C7 counterexample: a stored document carrying both a native `_id`
and a pre-existing `id` field has its `id` field overwritten with the
identifier's string form, so not every non-identifier field is passed
through unchanged. -/
theorem serialize_doc_id_clash_counterexample :
    lookupV [("_id", Value.vOid "abc"), ("id", Value.vStr "keep")] "id" =
      some (Value.vStr "keep") ∧
    lookupV (serialize_doc [("_id", Value.vOid "abc"), ("id", Value.vStr "keep")]) "id" =
      some (Value.vStr "abc") ∧
    Value.vStr "abc" ≠ Value.vStr "keep" := ⟨rfl, rfl, by decide⟩

/-- C7 amended: for every stored document that does not already carry an
`id` field, serialization removes the native `_id` key, exposes the
identifier's string form under `id`, renders datetime values as
ISO-8601 strings and passes every other field through unchanged; and
serialization is idempotent on all documents.  When a document carries
both `_id` and `id`, the pre-existing `id` value is overwritten. -/
theorem serialize_doc_spec (d : Doc) (hid : hasKey d "id" = false) :
    hasKey (serialize_doc d) "_id" = false ∧
    (∀ v, lookupV d "_id" = some v →
      lookupV (serialize_doc d) "id" = some (Value.vStr (pyStr v))) ∧
    (∀ k, k ≠ "_id" → k ≠ "id" →
      lookupV (serialize_doc d) k = (lookupV d k).map dtRender) ∧
    serialize_doc (serialize_doc d) = serialize_doc d := by
  refine ⟨?_, ?_, ?_, serialize_doc_idem d⟩
  · cases hid2 : lookupV d "_id" with
    | none =>
      simp only [serialize_doc, hid2]
      rw [hasKey_map_render]
      rw [hasKey_eq_isSome, hid2]
      rfl
    | some v =>
      simp only [serialize_doc, hid2]
      rw [hasKey_map_render]
      rw [hasKey_setKey_ne _ _ _ _ (by decide : "_id" ≠ "id")]
      exact hasKey_removeKey_self d "_id"
  · intro v hv
    simp only [serialize_doc, hv]
    have hrm : hasKey (removeKey d "_id") "id" = false := by
      rw [hasKey_removeKey_ne d "id" "_id" (by decide)]
      exact hid
    rw [setKey_eq_append _ _ _ hrm, lookupV_map_render,
      lookupV_append_self _ _ _ ((lookupV_eq_none_iff _ _).mpr hrm)]
    rfl
  · intro k hk1 hk2
    cases hid2 : lookupV d "_id" with
    | none =>
      simp only [serialize_doc, hid2]
      exact lookupV_map_render d k
    | some v =>
      simp only [serialize_doc, hid2]
      rw [lookupV_map_render, lookupV_setKey_ne _ _ _ _ hk2,
        lookupV_removeKey_ne _ _ _ hk1]

/-- C7 witness: a document with a native identifier and a datetime field
serializes to a string `id` and an ISO string, and re-serializing it
changes nothing. -/
theorem serialize_doc_spec_witness :
    lookupV (serialize_doc [("_id", Value.vOid "a1b2"),
      ("when", Value.vDT ⟨2024,1,2,3,4,5⟩)]) "id" = some (Value.vStr "a1b2") ∧
    serialize_doc (serialize_doc [("_id", Value.vOid "a1b2"),
      ("when", Value.vDT ⟨2024,1,2,3,4,5⟩)]) =
      serialize_doc [("_id", Value.vOid "a1b2"), ("when", Value.vDT ⟨2024,1,2,3,4,5⟩)] :=
  ⟨(serialize_doc_spec [("_id", Value.vOid "a1b2"),
      ("when", Value.vDT ⟨2024,1,2,3,4,5⟩)] rfl).2.1 (Value.vOid "a1b2") rfl,
   (serialize_doc_spec [("_id", Value.vOid "a1b2"),
      ("when", Value.vDT ⟨2024,1,2,3,4,5⟩)] rfl).2.2.2⟩

/-- C8 counterexample: the supplied limit -5 reaches the store's find
bound unchanged — `int()` coerces it to an integer but not to a positive
one. -/
theorem limit_not_positive_counterexample :
    Except.map ListResponse.limitArg
      (list_homestays true [] none none none none none (-5)) = .ok (-5) ∧
    ¬(0 < (-5 : Int)) := ⟨rfl, by decide⟩

/-- C8 amended: with the limit parameter absent the handler uses the
default 24; a supplied limit is coerced to an integer and passed as the
bound of the store's find unchanged — including zero and negative
values — for every combination of the other parameters. -/
theorem limit_default_and_pass_through (docs : List Doc) (q c : Option String)
    (mn mx : Option Rat) (g : Option Int) (lim : Int) :
    list_homestays_noLimit true docs q c mn mx g =
      list_homestays true docs q c mn mx g 24 ∧
    Except.map ListResponse.limitArg (list_homestays true docs q c mn mx g lim) =
      .ok lim := ⟨rfl, rfl⟩

/-- C8 witness: instantiation at a concrete request. -/
theorem limit_default_and_pass_through_witness :
    list_homestays_noLimit true [] none none none none none =
      list_homestays true [] none none none none none 24 ∧
    Except.map ListResponse.limitArg
      (list_homestays true [] none none none none none 7) = .ok 7 :=
  ⟨(limit_default_and_pass_through [] none none none none none 7).1,
   (limit_default_and_pass_through [] none none none none none 7).2⟩

/-- C9: with the store handle unset, the listing and featured handlers
answer the fixed 500 detail for every parameter combination and every
store content — the result does not depend on the stored documents, so
no query is attempted, and the detail leaks no connection internals. -/
theorem store_unavailable_500 (docs : List Doc) (q c : Option String)
    (mn mx : Option Rat) (g : Option Int) (lim lim2 : Int) :
    list_homestays false docs q c mn mx g lim =
      .error (500, "Database not configured") ∧
    featured_homestays false docs lim2 = .error (500, "Database not configured") :=
  ⟨rfl, rfl⟩

/-- C9 witness: instantiation at a concrete request with every filter
supplied. -/
theorem store_unavailable_500_witness :
    list_homestays false [docAbc] (some "lake") (some "Japan") (some 5) (some 100)
      (some 2) 24 = .error (500, "Database not configured") ∧
    featured_homestays false [docAbc] 8 = .error (500, "Database not configured") :=
  store_unavailable_500 [docAbc] (some "lake") (some "Japan") (some 5) (some 100)
    (some 2) 24 8

/-- C10: an empty-string q or country parameter is falsy in Python, so
it contributes no clause and the response is identical to omitting the
parameter entirely. -/
theorem empty_params_like_absent (dbUp : Bool) (docs : List Doc) (qo co : Option String)
    (mn mx : Option Rat) (g : Option Int) (lim : Int) :
    list_homestays dbUp docs (some "") co mn mx g lim =
      list_homestays dbUp docs none co mn mx g lim ∧
    list_homestays dbUp docs qo (some "") mn mx g lim =
      list_homestays dbUp docs qo none mn mx g lim := ⟨rfl, rfl⟩

/-- C10 witness: instantiation at a concrete request. -/
theorem empty_params_like_absent_witness :
    list_homestays true [docLake] (some "") none none none none 24 =
      list_homestays true [docLake] none none none none none 24 ∧
    list_homestays true [docLake] none (some "") none none none 24 =
      list_homestays true [docLake] none none none none none 24 :=
  ⟨(empty_params_like_absent true [docLake] none none none none none 24).1,
   (empty_params_like_absent true [docLake] none none none none none 24).2⟩
